import Mathlib

/-!
Verification development for the customer-feedback analysis pipeline
(`src/app.py`).

The core of the program is a pure batch pipeline: review texts are scored
for sentiment, product tags are extracted from each text against a fixed
vocabulary, the tag "transactions" are mined for frequent itemsets and
association rules, and recommendations are composed per (transaction, rule)
pair, phrased by the review's sentiment polarity.  A second, independent
keyword-based composer classifies each review by keyword lists and returns
a templated message.

Modelling conventions:
* Texts are lists of characters; `None` inputs are `Option.none` and the
  Python idiom `(review or "").lower()` is `contentOf`.
* Python `str.lower` is modelled character-wise on ASCII letters, which is
  exact for the (all-ASCII) vocabulary and keyword lists.
* Sentiment compound scores and support/confidence/lift values are exact
  rationals; the float literals 0.05 and 0.1 are `mkRat 1 20` and
  `mkRat 1 10`.  Rational values are always built with `mkRat`/`Rat.divInt`
  so that every definition evaluates by kernel reduction.
* The VADER sentiment scorer (nltk) is an external collaborator: the
  pipeline is parametric in the score a text receives, as is the
  `random.choice` template selector of the keyword composer.
-/

namespace CustomerFeedback

/-- Characters of a string. -/
def str (s : String) : List Char := s.data

/-- Character-wise lower-casing as Python `str.lower` acts on ASCII letters. -/
def asciiLower (c : Char) : Char :=
  if 'A' ≤ c ∧ c ≤ 'Z' then Char.ofNat (c.toNat + 32) else c

/-- Lower-case a text character-wise. -/
def lowerStr (s : List Char) : List Char := s.map asciiLower

/-- Python `(review or "").lower()`: a missing review is treated as the
empty text, then lower-cased (src/app.py lines 66 and 173). -/
def contentOf (review : Option String) : List Char :=
  lowerStr (str (review.getD ""))

/-- Python substring containment `needle in haystack`. -/
def isSubstring : List Char → List Char → Bool
  | n, [] => n.isEmpty
  | n, c :: rest => n.isPrefixOf (c :: rest) || isSubstring n rest

/-- Fixed product/attribute vocabulary (src/app.py lines 59-63). -/
def product_list : List (List Char) :=
  [str "delivery", str "packaging", str "taste", str "quality", str "price",
   str "refund", str "app", str "support", str "burger", str "pizza",
   str "fries", str "sauce", str "combo", str "subscription", str "drink",
   str "beverage"]

/-- Lexicographic comparison of character lists by code point, as Python
compares strings in `sorted`. -/
def lexLe : List Char → List Char → Bool
  | [], _ => true
  | _ :: _, [] => false
  | a :: as, b :: bs => if a < b then true else if a = b then lexLe as bs else false

/-- Propositional form of `lexLe`, the order used to sort extracted tags. -/
def tagLe (a b : List Char) : Prop := lexLe a b = true

instance : DecidableRel tagLe := fun a b => instDecidableEqBool (lexLe a b) true

/-- Tags of one review: vocabulary entries occurring as substrings of the
lower-cased text, deduplicated and sorted — Python
`sorted(list(set([p for p in product_list if p in text])))`
(src/app.py lines 66-69).  Python's `sorted` is modelled by insertion sort;
on a duplicate-free input every comparison sort returns the same list. -/
def extractTags (review : Option String) : List (List Char) :=
  List.insertionSort tagLe
    ((product_list.filter (fun p => isSubstring p (contentOf review))).dedup)

/-- Transaction builder `extract_products_from_reviews` (src/app.py lines
64-70): one transaction per review whose text matches at least one
vocabulary tag, in input order; zero-tag reviews are dropped. -/
def extract_products_from_reviews : List (Option String) → List (List (List Char))
  | [] => []
  | review :: rest =>
    if (extractTags review).isEmpty then extract_products_from_reviews rest
    else extractTags review :: extract_products_from_reviews rest

/-- Modelled from the spec: `analyze_sentiments` (src/app.py lines 46-49)
maps each review text through the external VADER scorer to its compound
polarity score, index-aligned with the review sequence.  The scorer itself
(nltk, out of src/) is the parameter `score`. -/
def analyze_sentiments (score : String → ℚ) (reviews : List String) : List ℚ :=
  reviews.map score

/-- Sentiment lookup used by the recommendation composer:
`sentiments.iloc[min(idx, len(sentiments) - 1)]` (src/app.py line 95).
With a nonempty sentiment list the clamped index is always in range; the
default 0 is never consulted there. -/
def sentimentAt (sentiments : List ℚ) (idx : Nat) : ℚ :=
  sentiments.getD (min idx (sentiments.length - 1)) 0

/-- Association rule record: antecedents, consequents and the three
mlxtend metrics. -/
structure AssocRule where
  antecedents : List (List Char)
  consequents : List (List Char)
  support : ℚ
  confidence : ℚ
  lift : ℚ
deriving DecidableEq

/-- Python `", ".join(tags)`. -/
def joinTags (tags : List (List Char)) : String :=
  String.intercalate ", " (tags.map String.mk)

/-- Python `round(x, 3)`: round to 3 decimal places (ties here round up;
the tie-breaking convention is irrelevant to every stated property). -/
def round3 (q : ℚ) : ℚ :=
  mkRat (Int.ediv (2 * q.num * 1000 + (q.den : Int)) (2 * (q.den : Int))) 1000

/-- One emitted recommendation record (src/app.py lines 104-120). -/
structure Recommendation where
  rule : String
  recommended_products : String
  support : ℚ
  confidence : ℚ
  lift : ℚ
  sentiment : String
deriving DecidableEq

/-- The recommendation built for a matching rule, phrased by the polarity
flag `positive_review = sentiment['compound'] > 0.05`
(src/app.py lines 96, 103-120). -/
def mkRecommendation (positive_review : Bool) (r : AssocRule) : Recommendation :=
  if positive_review then
    { rule := joinTags r.antecedents ++ " -> " ++ joinTags r.consequents
      recommended_products := joinTags r.consequents
      support := round3 r.support
      confidence := round3 r.confidence
      lift := round3 r.lift
      sentiment := "Positive" }
  else
    { rule := joinTags r.antecedents ++ " -> " ++ joinTags r.consequents
      recommended_products := "Consider improving " ++ joinTags r.consequents
      support := round3 r.support
      confidence := round3 r.confidence
      lift := round3 r.lift
      sentiment := "Negative" }

/-- Antecedent test `all(product in row for product in antecedents)`
(src/app.py line 102). -/
def ruleMatches (row : List (List Char)) (r : AssocRule) : Bool :=
  r.antecedents.all (fun p => row.contains p)

/-- Body of the per-transaction loop (src/app.py lines 91-120): skip empty
rows, look up the aligned sentiment, and emit one recommendation per rule
whose antecedent set is contained in the row. -/
def composeForTransaction (sentiments : List ℚ) (rules : List AssocRule)
    (idx : Nat) (row : List (List Char)) : List Recommendation :=
  if row.isEmpty then []
  else
    (rules.filter (ruleMatches row)).map
      (mkRecommendation (decide (mkRat 1 20 < sentimentAt sentiments idx)))

/-- The `for idx, row in enumerate(transactions)` loop (src/app.py line 91). -/
def composeRecs (sentiments : List ℚ) (rules : List AssocRule) :
    Nat → List (List (List Char)) → List Recommendation
  | _, [] => []
  | idx, row :: rest =>
    composeForTransaction sentiments rules idx row ++
      composeRecs sentiments rules (idx + 1) rest

/-- Distinct items appearing in the transaction list — the columns of the
one-hot basket built at src/app.py line 82. -/
def itemUniverse (transactions : List (List (List Char))) : List (List Char) :=
  transactions.flatten.dedup

/-- Does transaction `t` contain every item of `itemset`? -/
def containsAll (t itemset : List (List Char)) : Bool :=
  itemset.all (fun i => t.contains i)

/-- Modelled from the spec: support of an itemset, the fraction of
transactions containing it as a subset (spec section 4.4; computed by the
external mlxtend apriori at src/app.py line 84). -/
def supportOf (transactions : List (List (List Char))) (itemset : List (List Char)) : ℚ :=
  mkRat (transactions.countP (fun t => containsAll t itemset)) transactions.length

/-- Modelled from the spec: the external mlxtend
`apriori(basket, min_support, use_colnames=True)` call (src/app.py line 84)
— every nonempty itemset over the item universe whose support is at least
`min_support` (spec section 4.4). -/
def apriori (transactions : List (List (List Char))) (min_support : ℚ) :
    List (List (List Char)) :=
  (itemUniverse transactions).sublists.filter
    (fun s => !s.isEmpty && decide (min_support ≤ supportOf transactions s))

/-- Exact rational division `a / b` built with `Rat.divInt` (kernel
reducible); division by zero yields 0 and is never reached on mined rules. -/
def ratDiv (a b : ℚ) : ℚ := Rat.divInt (a.num * (b.den : Int)) ((a.den : Int) * b.num)

/-- Modelled from the spec: the external mlxtend
`association_rules(frequent_itemsets, metric="lift", min_threshold=1)` call
(src/app.py line 88) — for every frequent itemset, every split into a
nonempty antecedent and the complementary nonempty consequent, with
support(A→B) = support(A∪B), confidence = support(A∪B)/support(A),
lift = confidence/support(B), kept when the lift metric reaches the
threshold (spec section 4.4). -/
def association_rules (transactions : List (List (List Char)))
    (frequent_itemsets : List (List (List Char))) (min_threshold : ℚ) :
    List AssocRule :=
  frequent_itemsets.flatMap (fun itemset =>
    itemset.sublists.filterMap (fun antecedents =>
      let consequents := itemset.filter (fun x => !antecedents.contains x)
      if antecedents.isEmpty || consequents.isEmpty then none
      else
        let s := supportOf transactions itemset
        let conf := ratDiv s (supportOf transactions antecedents)
        let lft := ratDiv conf (supportOf transactions consequents)
        if min_threshold ≤ lft then
          some { antecedents := antecedents, consequents := consequents,
                 support := s, confidence := conf, lift := lft }
        else none))

/-- The mined rule set used by `generate_recommendations`
(src/app.py lines 84, 88). -/
def minedRules (transactions : List (List (List Char))) : List AssocRule :=
  association_rules transactions (apriori transactions (mkRat 1 10)) 1

/-- Recommendation pipeline `generate_recommendations(transactions,
sentiments)` (src/app.py lines 76-122): empty transaction lists and empty
mining results return the empty list; otherwise rules are mined at
min_support 0.1 and lift threshold 1 and the composer loop runs over the
transactions. -/
def generate_recommendations (transactions : List (List (List Char)))
    (sentiments : List ℚ) : List Recommendation :=
  if transactions.isEmpty then []
  else
    let frequent_itemsets := apriori transactions (mkRat 1 10)
    if frequent_itemsets.isEmpty then []
    else composeRecs sentiments (minedRules transactions) 0 transactions

/-- Fixed keyword lists of the keyword-based composer
(src/app.py lines 129-144). -/
def positive_keywords : List (List Char) :=
  [str "good", str "like", str "love", str "wonderful", str "super",
   str "amazing", str "marvellous", str "surprised", str "great",
   str "excellent", str "fantastic", str "awesome", str "perfect"]

/-- Negative keyword list (src/app.py lines 134-138). -/
def negative_keywords : List (List Char) :=
  [str "hate", str "bad", str "poor", str "disgusting", str "waste",
   str "not happy", str "don\x27t like", str "disappointed", str "awful",
   str "not satisfied", str "horrible", str "terrible", str "worst"]

/-- Neutral keyword list (src/app.py lines 139-144). -/
def neutral_keywords : List (List Char) :=
  [str "okay", str "average", str "fine", str "moderate", str "fair",
   str "sufficient", str "normal", str "acceptable", str "regular",
   str "standard", str "routine", str "usual", str "ordinary", str "typical",
   str "not sure", str "perhaps", str "maybe", str "decent", str "not bad",
   str "satisfactory"]

/-- Positive template pool (src/app.py lines 146-152). -/
def positive_recommendations : List String :=
  ["It\x27s great to see your positive experience! We recommend trying our new flavors as well; they\x27re fantastic!",
   "Since you enjoyed this product, you might also like our complementary items that enhance the experience!",
   "We\x27re glad you loved this! You should check out our loyalty deals for even better value!",
   "Glad to hear you\x27re satisfied! Don\x27t miss our upcoming promotions that might interest you.",
   "Based on your positive review, you might enjoy our subscription service for regular deliveries!"]

/-- Negative template pool (src/app.py lines 154-161). -/
def negative_recommendations : List String :=
  ["We appreciate your feedback! Please reach out to our customer service for immediate assistance.",
   "Thanks for sharing your experience. Our troubleshooting guide might offer a quick solution.",
   "Sorry to hear that! Check our FAQs for tips that can help resolve it quickly.",
   "Thanks for your honesty! Stay tuned \u2014 we\u2019re actively improving this area.",
   "We value your input. Our customer care can offer personalized support.",
   "We\u2019re sorry about the experience. Please try our latest update \u2014 we\u2019re continually improving."]

/-- Neutral template pool (src/app.py lines 163-169). -/
def neutral_recommendations : List String :=
  ["Thanks for your balanced feedback! We\u2019re working on making things even better.",
   "We appreciate your input. Do check back soon \u2014 improvements are always ongoing.",
   "Your thoughts are valuable. Stay tuned for upcoming updates that may enhance your experience.",
   "Thanks for the fair review! We\x27d love to hear more details to help us improve.",
   "We\u2019re glad things were okay! We aim to make them great next time."]

/-- Fixed generic fallback message (src/app.py line 181). -/
def fallbackMessage : String :=
  "Thank you for your feedback! We\x27re always looking to improve."

/-- Python `any(keyword in content for keyword in keywords)`
(src/app.py lines 174, 176, 178). -/
def matchesAny (keywords : List (List Char)) (content : List Char) : Bool :=
  keywords.any (fun k => isSubstring k content)

/-- Loop body of `generate_simple_recommendations` (src/app.py lines
172-182): classify by first-match priority (positive, then negative, then
neutral) over the lower-cased content and draw one template from the
matched class pool; no match yields the fixed fallback message.  The
external `random.choice` draw is the parameter `pick`. -/
def simpleRecFor (pick : List String → String) (review : Option String) : String :=
  let content := contentOf review
  if matchesAny positive_keywords content then pick positive_recommendations
  else if matchesAny negative_keywords content then pick negative_recommendations
  else if matchesAny neutral_keywords content then pick neutral_recommendations
  else fallbackMessage

/-- Keyword-based composer `generate_simple_recommendations`
(src/app.py lines 128-184): one output string per input review, in order. -/
def generate_simple_recommendations (pick : List String → String)
    (reviews : List (Option String)) : List String :=
  reviews.map (simpleRecFor pick)

/-- Three-way label of a stored sentiment score, the inner `label`
function of `generate_charts` (src/app.py lines 205-212). -/
def label (score : Option ℚ) : String :=
  match score with
  | none => "Neutral"
  | some s =>
    if mkRat 1 20 < s then "Positive"
    else if s < mkRat (-1) 20 then "Negative"
    else "Neutral"

/-- Sentiment aggregation of `generate_charts` (src/app.py lines 214-215):
Python `pd.Series(labels).value_counts().reindex(["Positive", "Neutral",
"Negative"]).fillna(0)` — counts per label over the fixed ordered label
set, zero-filled for absent labels. -/
def sentimentCounts (scores : List (Option ℚ)) : List (String × Nat) :=
  let labels := scores.map label
  [("Positive", labels.count "Positive"), ("Neutral", labels.count "Neutral"),
   ("Negative", labels.count "Negative")]

/-- Reviews that survive transaction building: those whose text matches at
least one vocabulary tag.  The transaction at position `i` of the builder's
output is derived from position `i` of this filtered sequence. -/
def keptReviews (reviews : List String) : List String :=
  reviews.filter (fun r => !(extractTags (some r)).isEmpty)

/-- Concrete sentiment assignment used to exercise the pipeline: the text
"love the pizza" scores 1/2, every other text scores 0.  (Stands in for the
external scorer, which assigns a positive compound score to that text.) -/
def demoScore (s : String) : ℚ := if s = "love the pizza" then mkRat 1 2 else 0

/-- Concrete association rule used to exercise the composer. -/
def demoRule : AssocRule :=
  { antecedents := [str "pizza"], consequents := [str "fries"],
    support := 1, confidence := 1, lift := 1 }

/-! ## Helper lemmas -/

theorem lexLe_cons {x y : Char} {xs ys : List Char} :
    lexLe (x :: xs) (y :: ys) = true ↔ (x < y ∨ (x = y ∧ lexLe xs ys = true)) := by
  constructor
  · intro h
    by_cases h1 : x < y
    · exact Or.inl h1
    · by_cases h2 : x = y
      · refine Or.inr ⟨h2, ?_⟩
        simpa [lexLe, h1, h2] using h
      · simp [lexLe, h1, h2] at h
  · rintro (h1 | ⟨h2, h3⟩)
    · simp [lexLe, h1]
    · simp [lexLe, h2, h3]

theorem lexLe_total : ∀ a b : List Char, lexLe a b = true ∨ lexLe b a = true := by
  intro a
  induction a with
  | nil => intro b; exact Or.inl rfl
  | cons x xs ih =>
    intro b
    cases b with
    | nil => exact Or.inr rfl
    | cons y ys =>
      by_cases h1 : x < y
      · exact Or.inl (lexLe_cons.mpr (Or.inl h1))
      · by_cases h2 : y < x
        · exact Or.inr (lexLe_cons.mpr (Or.inl h2))
        · have hxy : x = y := le_antisymm (not_lt.mp h2) (not_lt.mp h1)
          rcases ih ys with h | h
          · exact Or.inl (lexLe_cons.mpr (Or.inr ⟨hxy, h⟩))
          · exact Or.inr (lexLe_cons.mpr (Or.inr ⟨hxy.symm, h⟩))

theorem lexLe_trans :
    ∀ a b c : List Char, lexLe a b = true → lexLe b c = true → lexLe a c = true := by
  intro a
  induction a with
  | nil => intro b c _ _; rfl
  | cons x xs ih =>
    intro b c hab hbc
    cases b with
    | nil => simp [lexLe] at hab
    | cons y ys =>
      cases c with
      | nil => simp [lexLe] at hbc
      | cons z zs =>
        rcases lexLe_cons.mp hab with h1 | ⟨h1, h1t⟩ <;>
          rcases lexLe_cons.mp hbc with h2 | ⟨h2, h2t⟩
        · exact lexLe_cons.mpr (Or.inl (h1.trans h2))
        · exact lexLe_cons.mpr (Or.inl (h2 ▸ h1))
        · exact lexLe_cons.mpr (Or.inl (h1 ▸ h2))
        · exact lexLe_cons.mpr (Or.inr ⟨h1.trans h2, ih ys zs h1t h2t⟩)

instance : IsTotal (List Char) tagLe := ⟨lexLe_total⟩

instance : IsTrans (List Char) tagLe := ⟨lexLe_trans⟩

theorem extract_eq_filter (reviews : List (Option String)) :
    extract_products_from_reviews reviews
      = (reviews.map extractTags).filter (fun l => !l.isEmpty) := by
  induction reviews with
  | nil => rfl
  | cons r rest ih =>
    simp only [extract_products_from_reviews, List.map_cons, List.filter_cons]
    by_cases h : (extractTags r).isEmpty
    · simp [h, ih]
    · simp [h, ih]

theorem extractTags_none : extractTags none = [] := by decide

theorem labelCases (o : Option ℚ) :
    label o = "Positive" ∨ label o = "Neutral" ∨ label o = "Negative" := by
  cases o with
  | none => exact Or.inr (Or.inl rfl)
  | some s =>
    simp only [label]
    split_ifs
    · exact Or.inl rfl
    · exact Or.inr (Or.inr rfl)
    · exact Or.inr (Or.inl rfl)

theorem mem_composeRecs {sentiments : List ℚ} {rules : List AssocRule}
    {rec : Recommendation} :
    ∀ {i : Nat} {transactions : List (List (List Char))},
      rec ∈ composeRecs sentiments rules i transactions →
      ∃ row ∈ transactions, ∃ r ∈ rules,
        (∀ p ∈ r.antecedents, p ∈ row) ∧ ∃ b : Bool, rec = mkRecommendation b r := by
  intro i transactions
  induction transactions generalizing i with
  | nil => intro h; exact absurd h (List.not_mem_nil rec)
  | cons row rest ih =>
    intro h
    rw [composeRecs, List.mem_append] at h
    rcases h with h | h
    · unfold composeForTransaction at h
      by_cases he : row.isEmpty
      · rw [if_pos he] at h; exact absurd h (List.not_mem_nil rec)
      · rw [if_neg he] at h
        rcases List.mem_map.mp h with ⟨r, hr, rfl⟩
        rcases List.mem_filter.mp hr with ⟨hrules, hmatch⟩
        refine ⟨row, List.mem_cons_self row rest, r, hrules, ?_, _, rfl⟩
        intro p hp
        have hc := List.all_eq_true.mp hmatch p hp
        simpa using hc
    · rcases ih h with ⟨row2, hrow2, rest2⟩
      exact ⟨row2, List.mem_cons_of_mem _ hrow2, rest2⟩

/-! ## Claim theorems -/

/-- C4: when the transaction list is empty, or mining yields no frequent
itemsets, `generate_recommendations` returns the empty recommendation list;
being a total function of its inputs, it raises no error. -/
theorem c4_theorem (transactions : List (List (List Char))) (sentiments : List ℚ)
    (h : transactions = [] ∨ (apriori transactions (mkRat 1 10)).isEmpty = true) :
    generate_recommendations transactions sentiments = [] := by
  rcases h with h | h
  · subst h; rfl
  · simp [generate_recommendations, h]

/-- Witness for C4 at concrete inputs: the empty transaction list, and a
nonempty transaction list whose mining result is empty. -/
theorem c4_witness :
    generate_recommendations [] [] = [] ∧ generate_recommendations [[]] [] = [] :=
  ⟨c4_theorem [] [] (Or.inl rfl), c4_theorem [[]] [] (Or.inr (by decide))⟩

/-- C5: the sentiment aggregator labels a present score "Positive" iff it
exceeds 0.05 (= 1/20), "Negative" iff it is below -0.05, and "Neutral"
otherwise; an absent score is "Neutral".  Counts are returned over the
fixed ordered label set Positive, Neutral, Negative (zero-filled, and every
item is counted under exactly one label), and the spec's example
[0.5, -0.5, None, 0.0] yields counts 1, 2, 1. -/
theorem c5_theorem :
    (∀ s : ℚ,
        (label (some s) = "Positive" ↔ mkRat 1 20 < s)
        ∧ (label (some s) = "Negative" ↔ s < mkRat (-1) 20)
        ∧ (label (some s) = "Neutral" ↔ (mkRat (-1) 20 ≤ s ∧ s ≤ mkRat 1 20)))
    ∧ label none = "Neutral"
    ∧ (∀ scores : List (Option ℚ),
        (sentimentCounts scores).map Prod.fst = ["Positive", "Neutral", "Negative"]
        ∧ ((sentimentCounts scores).map Prod.snd).sum = scores.length)
    ∧ sentimentCounts [some (mkRat 1 2), some (mkRat (-1) 2), none, some 0]
        = [("Positive", 1), ("Neutral", 2), ("Negative", 1)] := by
  refine ⟨?_, rfl, ?_, by decide⟩
  · intro s
    simp only [label]
    split_ifs with h1 h2
    · exact ⟨⟨fun _ => h1, fun _ => rfl⟩,
        ⟨fun hh => absurd hh (by decide),
         fun hh => absurd h1 (not_lt.mpr (le_of_lt (hh.trans (by decide))))⟩,
        ⟨fun hh => absurd hh (by decide), fun hh => absurd h1 (not_lt.mpr hh.2)⟩⟩
    · exact ⟨⟨fun hh => absurd hh (by decide),
         fun hh => absurd hh (not_lt.mpr (le_of_lt (h2.trans (by decide))))⟩,
        ⟨fun _ => h2, fun _ => rfl⟩,
        ⟨fun hh => absurd hh (by decide), fun hh => absurd h2 (not_lt.mpr hh.1)⟩⟩
    · exact ⟨⟨fun hh => absurd hh (by decide), fun hh => absurd hh h1⟩,
        ⟨fun hh => absurd hh (by decide), fun hh => absurd hh h2⟩,
        ⟨fun _ => ⟨not_lt.mp h2, not_lt.mp h1⟩, fun _ => rfl⟩⟩
  · intro scores
    refine ⟨rfl, ?_⟩
    show (scores.map label).count "Positive"
        + ((scores.map label).count "Neutral"
          + ((scores.map label).count "Negative" + 0)) = scores.length
    induction scores with
    | nil => rfl
    | cons o rest ih =>
      simp only [List.map_cons, List.count_cons, List.length_cons]
      rcases labelCases o with h | h | h <;> rw [h] <;> simp <;> omega

/-- C7: the transaction builder emits, in input order, exactly the tag sets
of the reviews matching at least one vocabulary tag, and drops zero-tag
reviews; on the spec's example it emits the single transaction
`[pizza]`. -/
theorem c7_theorem :
    (∀ reviews : List (Option String),
        extract_products_from_reviews reviews
          = (reviews.map extractTags).filter (fun l => !l.isEmpty))
    ∧ extract_products_from_reviews [some "no tags here", some "love the pizza"]
        = [[str "pizza"]] :=
  ⟨extract_eq_filter, by decide⟩

/-- C9: the frequent-itemset miner is antitone in the support threshold —
raising `min_support` shrinks (pointwise, and in cardinality) the set of
frequent itemsets returned. -/
theorem c9_theorem (transactions : List (List (List Char))) (s1 s2 : ℚ)
    (h : s1 ≤ s2) :
    (∀ itemset ∈ apriori transactions s2, itemset ∈ apriori transactions s1)
    ∧ (apriori transactions s2).length ≤ (apriori transactions s1).length := by
  have key : ∀ a : List (List Char),
      (!a.isEmpty && decide (s2 ≤ supportOf transactions a)) = true →
      (!a.isEmpty && decide (s1 ≤ supportOf transactions a)) = true := by
    intro a ha
    rw [Bool.and_eq_true] at ha ⊢
    exact ⟨ha.1, decide_eq_true (le_trans h (of_decide_eq_true ha.2))⟩
  constructor
  · intro itemset hmem
    rcases List.mem_filter.mp hmem with ⟨hsub, hcond⟩
    exact List.mem_filter.mpr ⟨hsub, key itemset hcond⟩
  · exact (List.monotone_filter_right _ key).length_le

/-- Witness for C9 at thresholds 1/10 ≤ 1/2 over a one-transaction input. -/
theorem c9_witness :
    (∀ itemset ∈ apriori [[str "pizza"]] (mkRat 1 2),
        itemset ∈ apriori [[str "pizza"]] (mkRat 1 10))
    ∧ (apriori [[str "pizza"]] (mkRat 1 2)).length
        ≤ (apriori [[str "pizza"]] (mkRat 1 10)).length :=
  c9_theorem [[str "pizza"]] (mkRat 1 10) (mkRat 1 2) (by decide)

/-- C10: a `None` entry is treated as the empty text by both composers —
it contributes no transaction to the builder's output, and the keyword
composer returns the fixed fallback message at its position; both
functions are total, so no error is raised. -/
theorem c10_theorem (pick : List String → String) (reviews : List (Option String))
    (i : Nat) (h : reviews[i]? = some none) :
    (generate_simple_recommendations pick reviews)[i]? = some fallbackMessage
    ∧ (∀ l1 l2 : List (Option String),
        extract_products_from_reviews (l1 ++ none :: l2)
          = extract_products_from_reviews (l1 ++ l2)) := by
  constructor
  · unfold generate_simple_recommendations
    rw [List.getElem?_map, h]
    rfl
  · intro l1 l2
    rw [extract_eq_filter, extract_eq_filter]
    simp [List.filter_cons, extractTags_none]

/-- Witness for C10: a singleton review list holding `None`. -/
theorem c10_witness :
    (generate_simple_recommendations (fun l => l.headD "") [none])[0]?
        = some fallbackMessage
    ∧ (∀ l1 l2 : List (Option String),
        extract_products_from_reviews (l1 ++ none :: l2)
          = extract_products_from_reviews (l1 ++ l2)) :=
  c10_theorem (fun l => l.headD "") [none] 0 rfl

/-- C1 as stated fails on the code: the composer pairs transaction `i` with
sentiment `i` of the FULL review sequence, which is not the sentiment of
the review the transaction was derived from once an earlier review was
dropped.  Concretely, with reviews ["no tags here", "love the pizza"] the
only transaction ([pizza]) is derived from the second review, yet the
composer's lookup at transaction index 0 returns the first review's score
(0 under `demoScore`), not the originating review's score (1/2). -/
theorem c1_counterexample :
    extract_products_from_reviews ((["no tags here", "love the pizza"]).map some)
        = [[str "pizza"]]
    ∧ (keptReviews ["no tags here", "love the pizza"]).getD 0 ""
        = "love the pizza"
    ∧ sentimentAt (analyze_sentiments demoScore ["no tags here", "love the pizza"]) 0
        ≠ demoScore "love the pizza" := by
  refine ⟨by decide, by decide, by decide⟩

/-- C1 (amended): the composer pairs transaction `i` with the sentiment at
the clamped positional index `min(i, len(sentiments)-1)` of the full review
sequence — NOT with the sentiment of the originating review in general.
The two coincide when no review is dropped during transaction building,
i.e. when every review yields at least one vocabulary tag: then the
builder keeps all reviews, transaction `i` is derived from review `i`, and
the paired score is that review's score. -/
theorem c1_theorem (score : String → ℚ) (reviews : List String) (idx : Nat)
    (_hne : reviews ≠ []) :
    sentimentAt (analyze_sentiments score reviews) idx
        = (analyze_sentiments score reviews).getD (min idx (reviews.length - 1)) 0
    ∧ ((∀ r ∈ reviews, extractTags (some r) ≠ []) → idx < reviews.length →
        extract_products_from_reviews (reviews.map some)
            = reviews.map (fun r => extractTags (some r))
        ∧ sentimentAt (analyze_sentiments score reviews) idx
            = score (reviews.getD idx "")) := by
  constructor
  · simp [sentimentAt, analyze_sentiments]
  · intro hall hidx
    constructor
    · rw [extract_eq_filter, List.map_map]
      apply List.filter_eq_self.mpr
      intro x hx
      rcases List.mem_map.mp hx with ⟨r, hr, rfl⟩
      simpa using hall r hr
    · have hmin : min idx (reviews.length - 1) = idx := by omega
      simp only [sentimentAt, analyze_sentiments, List.length_map, hmin]
      rw [List.getD_eq_getElem?_getD, List.getElem?_map,
        List.getElem?_eq_getElem hidx, List.getD_eq_getElem?_getD,
        List.getElem?_eq_getElem hidx]
      rfl

/-- Witness for C1 (amended) on a one-review input where every review is
kept: the paired score is the originating review's score. -/
theorem c1_witness :
    extract_products_from_reviews ((["love the pizza"]).map some)
        = ["love the pizza"].map (fun r => extractTags (some r))
    ∧ sentimentAt (analyze_sentiments demoScore ["love the pizza"]) 0
        = demoScore (["love the pizza"].getD 0 "") :=
  (c1_theorem demoScore ["love the pizza"] 0 (by decide)).2 (by decide) (by decide)

/-- C2: every recommendation emitted by the pipeline arises from a
transaction of the input and a mined rule whose antecedent set is contained
in that transaction's tag set; no recommendation is emitted otherwise. -/
theorem c2_theorem (transactions : List (List (List Char))) (sentiments : List ℚ)
    (rec : Recommendation)
    (h : rec ∈ generate_recommendations transactions sentiments) :
    ∃ row ∈ transactions, ∃ r ∈ minedRules transactions,
      (∀ p ∈ r.antecedents, p ∈ row) ∧ ∃ b : Bool, rec = mkRecommendation b r := by
  simp only [generate_recommendations] at h
  split at h
  · exact absurd h (List.not_mem_nil rec)
  · split at h
    · exact absurd h (List.not_mem_nil rec)
    · exact mem_composeRecs h

/-- Witness for C2 on a one-transaction input that mines two rules and
emits recommendations. -/
theorem c2_witness :
    ∃ row ∈ [[str "pizza", str "fries"]],
      ∃ r ∈ minedRules [[str "pizza", str "fries"]],
        (∀ p ∈ r.antecedents, p ∈ row)
        ∧ ∃ b : Bool, mkRecommendation true demoRule = mkRecommendation b r :=
  c2_theorem [[str "pizza", str "fries"]] [1] (mkRecommendation true demoRule)
    (by decide)

/-- C3: for a transaction with an aligned sentiment score, every emitted
recommendation is the positive upsell phrasing with label "Positive"
exactly when the aligned compound score exceeds 0.05, and otherwise
(including scores in (-0.05, 0.05]) the improvement-suggestion phrasing
with label "Negative"; the label "Neutral" is never emitted. -/
theorem c3_theorem (sentiments : List ℚ) (rules : List AssocRule) (idx : Nat)
    (row : List (List Char)) (rec : Recommendation)
    (_hs : sentiments ≠ [])
    (h : rec ∈ composeForTransaction sentiments rules idx row) :
    (mkRat 1 20 < sentimentAt sentiments idx →
        rec.sentiment = "Positive"
        ∧ ∃ r ∈ rules, rec.recommended_products = joinTags r.consequents)
    ∧ (sentimentAt sentiments idx ≤ mkRat 1 20 →
        rec.sentiment = "Negative"
        ∧ ∃ r ∈ rules, rec.recommended_products
            = "Consider improving " ++ joinTags r.consequents)
    ∧ rec.sentiment ≠ "Neutral" := by
  unfold composeForTransaction at h
  by_cases he : row.isEmpty
  · rw [if_pos he] at h; exact absurd h (List.not_mem_nil rec)
  · rw [if_neg he] at h
    rcases List.mem_map.mp h with ⟨r, hr, rfl⟩
    have hrl : r ∈ rules := (List.mem_filter.mp hr).1
    by_cases hpos : mkRat 1 20 < sentimentAt sentiments idx
    · rw [decide_eq_true hpos]
      refine ⟨fun _ => ⟨rfl, r, hrl, rfl⟩,
        fun hle => absurd hpos (not_lt.mpr hle), ?_⟩
      rw [show (mkRecommendation true r).sentiment = "Positive" from rfl]
      decide
    · rw [decide_eq_false hpos]
      refine ⟨fun hlt => absurd hlt hpos,
        fun _ => ⟨rfl, r, hrl, rfl⟩, ?_⟩
      rw [show (mkRecommendation false r).sentiment = "Negative" from rfl]
      decide

/-- Witness for C3 on a positive-scored transaction matching one rule. -/
theorem c3_witness :
    (mkRat 1 20 < sentimentAt [mkRat 1 2] 0 →
        (mkRecommendation true demoRule).sentiment = "Positive"
        ∧ ∃ r ∈ [demoRule],
            (mkRecommendation true demoRule).recommended_products
              = joinTags r.consequents)
    ∧ (sentimentAt [mkRat 1 2] 0 ≤ mkRat 1 20 →
        (mkRecommendation true demoRule).sentiment = "Negative"
        ∧ ∃ r ∈ [demoRule],
            (mkRecommendation true demoRule).recommended_products
              = "Consider improving " ++ joinTags r.consequents)
    ∧ (mkRecommendation true demoRule).sentiment ≠ "Neutral" :=
  c3_theorem [mkRat 1 2] [demoRule] 0 [str "pizza"]
    (mkRecommendation true demoRule) (by decide) (by decide)

/-- C6: the extractor returns exactly the vocabulary tags occurring as
substrings of the lower-cased text, without duplicates, sorted in the
lexicographic (code point) order `tagLe`; extraction factors through the
lower-cased content, so texts with equal lower-casings — in particular
texts differing only in letter case — extract the same tags. -/
theorem c6_theorem (t : Option String) :
    (∀ tag, tag ∈ extractTags t ↔
        (tag ∈ product_list ∧ isSubstring tag (contentOf t) = true))
    ∧ (extractTags t).Nodup
    ∧ (extractTags t).Sorted tagLe
    ∧ (∀ t2 : Option String, contentOf t = contentOf t2 →
        extractTags t = extractTags t2) := by
  refine ⟨?_, ?_, ?_, ?_⟩
  · intro tag
    unfold extractTags
    rw [(List.perm_insertionSort tagLe _).mem_iff, List.mem_dedup, List.mem_filter]
  · exact (List.perm_insertionSort tagLe _).symm.nodup (List.nodup_dedup _)
  · exact List.sorted_insertionSort tagLe _
  · intro t2 h
    unfold extractTags
    rw [h]

/-- Witness for C6 on the spec's example: the upper- and lower-case
variants extract the same tags, namely fries and pizza. -/
theorem c6_witness :
    extractTags (some "GREAT Pizza and Fries")
        = extractTags (some "great pizza and fries")
    ∧ extractTags (some "great pizza and fries") = [str "fries", str "pizza"] :=
  ⟨(c6_theorem (some "GREAT Pizza and Fries")).2.2.2 (some "great pizza and fries")
      (by decide),
   by decide⟩

/-- C8: the keyword composer classifies each review by first-match
priority — positive keywords before negative before neutral, matched
case-insensitively on the lower-cased content — and returns a member of
the matched class's template pool (any review containing "amazing" falls
in the positive class, whose pool has 5 templates); a review matching none
of the three lists yields exactly the fixed fallback message.  The
sequence version emits one such string per review, in order. -/
theorem c8_theorem (pick : List String → String)
    (hpos : pick positive_recommendations ∈ positive_recommendations)
    (hneg : pick negative_recommendations ∈ negative_recommendations)
    (hneu : pick neutral_recommendations ∈ neutral_recommendations)
    (review : Option String) :
    (matchesAny positive_keywords (contentOf review) = true →
        simpleRecFor pick review ∈ positive_recommendations)
    ∧ (matchesAny positive_keywords (contentOf review) = false →
        matchesAny negative_keywords (contentOf review) = true →
        simpleRecFor pick review ∈ negative_recommendations)
    ∧ (matchesAny positive_keywords (contentOf review) = false →
        matchesAny negative_keywords (contentOf review) = false →
        matchesAny neutral_keywords (contentOf review) = true →
        simpleRecFor pick review ∈ neutral_recommendations)
    ∧ (matchesAny positive_keywords (contentOf review) = false →
        matchesAny negative_keywords (contentOf review) = false →
        matchesAny neutral_keywords (contentOf review) = false →
        simpleRecFor pick review = fallbackMessage)
    ∧ (isSubstring (str "amazing") (contentOf review) = true →
        simpleRecFor pick review ∈ positive_recommendations)
    ∧ positive_recommendations.length = 5
    ∧ (∀ reviews : List (Option String),
        generate_simple_recommendations pick reviews
          = reviews.map (simpleRecFor pick)) := by
  have hamz : isSubstring (str "amazing") (contentOf review) = true →
      matchesAny positive_keywords (contentOf review) = true := by
    intro h
    exact List.any_eq_true.mpr ⟨str "amazing", by decide, h⟩
  refine ⟨?_, ?_, ?_, ?_, ?_, rfl, fun _ => rfl⟩
  · intro h1
    simp only [simpleRecFor]
    rw [h1]
    simpa using hpos
  · intro h1 h2
    simp only [simpleRecFor]
    rw [h1, h2]
    simpa using hneg
  · intro h1 h2 h3
    simp only [simpleRecFor]
    rw [h1, h2, h3]
    simpa using hneu
  · intro h1 h2 h3
    simp only [simpleRecFor]
    rw [h1, h2, h3]
    simp
  · intro h
    have h1 := hamz h
    simp only [simpleRecFor]
    rw [h1]
    simpa using hpos

/-- Witness for C8 on a review containing "AMAZING" (matched
case-insensitively) with a concrete template selector. -/
theorem c8_witness :
    simpleRecFor (fun l => l.headD "") (some "This is AMAZING stuff")
      ∈ positive_recommendations :=
  (c8_theorem (fun l => l.headD "") (by decide) (by decide) (by decide)
      (some "This is AMAZING stuff")).2.2.2.2.1 (by decide)

end CustomerFeedback
